import Mathlib

set_option linter.unusedVariables false

/-! Formal model of `src/horde_model_reference/legacy/convert_legacy.py`.

The conversion logic is embedded as pure Lean functions.  External
collaborators that live outside `src/` (the pydantic record classes, the
path/URL helper functions, the strict target schema, and the filesystem)
are modelled from the spec as explicit data or as function parameters;
each such definition says so in its doc comment. -/

/-- Python substring test `pat in s`, on the character list of a string. -/
def listHasInfix (needle : List Char) : List Char → Bool
  | [] => needle.isEmpty
  | c :: rest => List.isPrefixOf needle (c :: rest) || listHasInfix needle rest

/-- Python `pat in s` for strings (substring containment). -/
def strContains (s pat : String) : Bool :=
  listHasInfix pat.data s.data

/-- Python `d[k] = v` on an insertion-ordered dict represented as an
association list: replace the first binding of `k`, else append. -/
def dictInsert {α : Type} : List (String × α) → String → α → List (String × α)
  | [], k, v => [(k, v)]
  | (k0, v0) :: rest, k, v =>
    if k0 == k then (k0, v) :: rest else (k0, v0) :: dictInsert rest k v

/-- Python `d[k] = d.get(k, 0) + 1`. -/
def dictBump (m : List (String × Nat)) (k : String) : List (String × Nat) :=
  dictInsert m k ((List.lookup k m).getD 0 + 1)

/-- Modelled from the spec: the legacy installable-file descriptor
(`Legacy_Config_FileRecord`, declared in `legacy_model_database_records.py`,
which is not under `src/`): a relative path and an optional checksum. -/
structure Legacy_Config_FileRecord where
  path : String
  sha256sum : Option String
deriving DecidableEq

/-- Modelled from the spec: the legacy remote-fetch descriptor
(`Legacy_Config_DownloadRecord`, declared outside `src/`): file name,
target path override, source URL, checksum, and the known-slow flag. -/
structure Legacy_Config_DownloadRecord where
  file_name : String
  file_path : Option String
  file_url : Option String
  sha256sum : Option String
  known_slow_download : Bool
deriving DecidableEq

/-- A value stored in a config sub-collection after parsing: either a file
record or a download record (the Python lists are heterogeneous, and the
config checker discriminates with `isinstance`). -/
inductive ConfigValue where
  | file (f : Legacy_Config_FileRecord)
  | download (d : Legacy_Config_DownloadRecord)
deriving DecidableEq

/-- Modelled from the spec: the scalar fields of a legacy stable-diffusion
model record (`Legacy_StableDiffusion_ModelRecord` is declared outside
`src/`), apart from the config block which the iterator rebuilds. -/
structure RecordFields where
  name : String
  type : String
  baseline : String
  style : String
  description : Option String
  available : Bool
  download_all : Bool
  showcases : Option (List String)
  tags : Option (List String)
deriving DecidableEq

/-- The typed record produced by the iterator and later mutated in place by
the orchestrator (models `Legacy_StableDiffusion_ModelRecord`). -/
structure Legacy_StableDiffusion_ModelRecord where
  name : String
  type : String
  baseline : String
  style : String
  description : Option String
  available : Bool
  download_all : Bool
  showcases : Option (List String)
  tags : Option (List String)
  config : List (String × List ConfigValue)
deriving DecidableEq

/-- Modelled from the spec: one raw JSON object found inside a config
sub-collection.  Pydantic parsing happens outside `src/`, so a raw object
is characterised by its two possible parse outcomes: `asFile` is the result
of `Legacy_Config_FileRecord(**obj)` (`none` models a `ValidationError`),
`asDownload` that of `Legacy_Config_DownloadRecord(**obj)`. -/
structure RawObject where
  asFile : Option Legacy_Config_FileRecord
  asDownload : Option Legacy_Config_DownloadRecord
deriving DecidableEq

/-- Modelled from the spec: one raw legacy record as loaded by `json.load`:
the raw config block (an insertion-ordered mapping from sub-collection key
to a list of raw objects) and the outcome of parsing the remaining fields
with `modelrecord_type(**contents)` (`none` models a `ValidationError`). -/
structure RawRecord where
  config : List (String × List RawObject)
  rest : Option RecordFields
deriving DecidableEq

/-- The mutable converter state: the two class-level dictionaries of
`LegacyConverterBase` (lines 32-35) plus a trace of everything printed to
stdout and of every showcase-folder creation request. -/
structure ConvState where
  all_model_records : List (String × Legacy_StableDiffusion_ModelRecord)
  all_validation_errors_log : List (String × List String)
  printed : List String
  createdFolders : List String
  print_errors : Bool
  debug_mode : Bool
deriving DecidableEq

/-- The class-level initial state: both dictionaries start empty when the
class body is executed, which happens once per process. -/
def classInitialState : ConvState :=
  { all_model_records := []
    all_validation_errors_log := []
    printed := []
    createdFolders := []
    print_errors := true
    debug_mode := false }

/-- Constructor `LegacyConverterBase.__init__` (lines 47-68): it assigns
only path and flag fields; it does not rebind `all_model_records` or
`all_validation_errors_log`, which are class attributes (lines 32-35)
mutated only by item assignment, so the shared dictionaries are returned
unchanged. -/
def LegacyConverterBase_init (st : ConvState) : ConvState := st

/-- Plain `print(...)` to stdout. -/
def addPrint (st : ConvState) (msg : String) : ConvState :=
  { st with printed := st.printed ++ [msg] }

/-- Append one entry to a per-key list-of-strings dict (the
`all_validation_errors_log` update inside `add_validation_error_to_log`). -/
def logAppend : List (String × List String) → String → String → List (String × List String)
  | [], k, e => [(k, [e])]
  | (k0, es) :: rest, k, e =>
    if k0 == k then (k0, es ++ [e]) :: rest else (k0, es) :: logAppend rest k e

/-- Method `add_validation_error_to_log` (lines 40-45). -/
def add_validation_error_to_log (st : ConvState) (model_record_key error : String) : ConvState :=
  let st2 := { st with
    all_validation_errors_log := logAppend st.all_validation_errors_log model_record_key error }
  if st2.print_errors then addPrint st2 ("-> " ++ error) else st2

/-- The two exception kinds that can escape the parsing statements inside
the iterator body: a pydantic `ValidationError` (caught on line 121) and
the `KeyError` from the checksum lookup on line 111 (never caught). -/
inductive IterErr where
  | validationErr
  | keyErr
deriving DecidableEq

/-- Result of an iterator sub-computation: a value, or an escaping
exception. -/
inductive IterRes (α : Type) where
  | ok (a : α)
  | err (e : IterErr)
deriving DecidableEq

/-- Inner loop of `_iterate_over_input_records` over one `"files"`
sub-collection (lines 100-107): parse each raw object, skip YAML paths,
record `path -> sha256sum` in the lookup dict, clear the checksum on the
parsed record, and collect it. -/
def processFilesList : List RawObject → List (String × Option String) →
    List Legacy_Config_FileRecord →
    IterRes (List (String × Option String) × List Legacy_Config_FileRecord)
  | [], sha, fs => .ok (sha, fs)
  | raw :: rest, sha, fs =>
    match raw.asFile with
    | none => .err .validationErr
    | some fr =>
      if strContains fr.path ".yaml" then processFilesList rest sha fs
      else
        processFilesList rest (dictInsert sha fr.path fr.sha256sum)
          (fs ++ [{ fr with sha256sum := none }])

/-- Inner loop over one `"download"` sub-collection (lines 108-112): parse
each raw object and replace its checksum by the lookup-table entry for its
file name; a missing key is a Python `KeyError`. -/
def processDownloadList : List RawObject → List (String × Option String) →
    List Legacy_Config_DownloadRecord → IterRes (List Legacy_Config_DownloadRecord)
  | [], _, ds => .ok ds
  | raw :: rest, sha, ds =>
    match raw.asDownload with
    | none => .err .validationErr
    | some dr =>
      match List.lookup dr.file_name sha with
      | none => .err .keyErr
      | some v => processDownloadList rest sha (ds ++ [{ dr with sha256sum := v }])

/-- Loop over the raw config sub-collections (lines 99-112), threading the
checksum lookup dict and both accumulator lists; keys other than `"files"`
and `"download"` are ignored. -/
def processConfigEntries : List (String × List RawObject) →
    List (String × Option String) → List Legacy_Config_FileRecord →
    List Legacy_Config_DownloadRecord →
    IterRes (List (String × Option String) × List Legacy_Config_FileRecord ×
      List Legacy_Config_DownloadRecord)
  | [], sha, fs, ds => .ok (sha, fs, ds)
  | (k, objs) :: rest, sha, fs, ds =>
    if k == "files" then
      match processFilesList objs sha fs with
      | .err e => .err e
      | .ok (sha2, fs2) => processConfigEntries rest sha2 fs2 ds
    else if k == "download" then
      match processDownloadList objs sha ds with
      | .err e => .err e
      | .ok ds2 => processConfigEntries rest sha fs ds2
    else processConfigEntries rest sha fs ds

/-- Reasons the conversion run can die with an uncaught exception. -/
inductive AbortReason where
  | shaLookupKeyError
  | showcaseKeyError
  | typeErrorFiles
  | typeErrorDownload
  | hostParseError
  | finalValidationError
deriving DecidableEq

/-- Result of one stateful step: continue with an updated state and a
value, or abort the whole run with an uncaught exception. -/
inductive StepResult (α : Type) where
  | ok (st : ConvState) (a : α)
  | fatal (r : AbortReason) (st : ConvState)
deriving DecidableEq

/-- Lines 114-118: the rebuilt record, whose config block holds exactly the
`"download"` sub-collection (the file list is dropped; see the commented
line 115 of the source). -/
def mkModelRecord (flds : RecordFields) (ds : List Legacy_Config_DownloadRecord) :
    Legacy_StableDiffusion_ModelRecord :=
  { name := flds.name, type := flds.type, baseline := flds.baseline
    style := flds.style, description := flds.description
    available := flds.available, download_all := flds.download_all
    showcases := flds.showcases, tags := flds.tags
    config := [("download", ds.map ConfigValue.download)] }

/-- Store a record under its key in `all_model_records` (line 119; the same
definition also models the later in-place mutations of the aliased record
object, which are visible through the stored reference). -/
def storeRecord (st : ConvState) (key : String)
    (r : Legacy_StableDiffusion_ModelRecord) : ConvState :=
  { st with all_model_records := dictInsert st.all_model_records key r }

/-- Body of `_iterate_over_input_records` for one raw record (lines
91-124).  A `ValidationError` is caught, logged (the pydantic message after
the colon is outside the model) and the record skipped; the `KeyError`
raised by the checksum lookup is not caught and kills the generator, and
with it the whole run. -/
def processRecord (st : ConvState) (key : String) (raw : RawRecord) :
    StepResult (Option Legacy_StableDiffusion_ModelRecord) :=
  let st1 := if 2 < raw.config.length then
      add_validation_error_to_log st key (key ++ " has more than 2 config entries.")
    else st
  match processConfigEntries raw.config [] [] [] with
  | .err .keyErr => .fatal .shaLookupKeyError st1
  | .err .validationErr =>
    .ok (add_validation_error_to_log st1 key ("CRITICAL: Error parsing " ++ key ++ ":")) none
  | .ok (_, _, ds) =>
    match raw.rest with
    | none =>
      .ok (add_validation_error_to_log st1 key ("CRITICAL: Error parsing " ++ key ++ ":")) none
    | some flds =>
      let r := mkModelRecord flds ds
      .ok (storeRecord st1 key r) (some r)

/-- Method `convert_legacy_baseline` (lines 374-382). -/
def convert_legacy_baseline (baseline : String) : String :=
  if baseline == "stable diffusion 1" then "stable_diffusion_1"
  else if baseline == "stable diffusion 2" then "stable_diffusion_2_768"
  else if baseline == "stable diffusion 2 512" then "stable_diffusion_2_512"
  else baseline

/-- Method `generic_record_sanity_checks` (lines 126-159).  Every finding
is advisory: it goes to the validation log and never stops the run.  The
`record.config is None` branch cannot fire in this model because the
iterator always installs a config mapping before building the record. -/
def generic_record_sanity_checks (st : ConvState) (key : String)
    (r : Legacy_StableDiffusion_ModelRecord) : ConvState :=
  let st := if r.name != key then
      add_validation_error_to_log st key ("name mismatch for " ++ key ++ ".")
    else st
  let st := if r.available then
      add_validation_error_to_log st key (key ++ " is flagged \x27available\x27.")
    else st
  let st := if r.download_all && st.debug_mode then
      add_validation_error_to_log st key (key ++ " has download_all set.")
    else st
  let st := if r.description == none then
      add_validation_error_to_log st key (key ++ " has no description.")
    else st
  if r.style == "" then
    add_validation_error_to_log st key (key ++ " has no style.")
  else st

/-- Modelled from the spec: the aggregate output object
(`Legacy_StableDiffusion_ModelReference`, declared outside `src/`). -/
structure Legacy_StableDiffusion_ModelReference where
  baseline_types : List (String × Nat)
  styles : List (String × Nat)
  tags : List (String × Nat)
  model_hosts : List (String × Nat)
  models : List (String × Legacy_StableDiffusion_ModelRecord)
deriving DecidableEq

/-- Modelled from the spec: the external pure collaborators consumed by the
converter, none of which live under `src/`: the folder-name helper from
`util.py`, `urllib.parse.quote`, `urllib.parse.urljoin`, `Path(...).name`,
the constant GitHub base from `consts.py`, host extraction by
`urllib.parse.urlparse(...).netloc` (`none` models a raised exception),
and serialisation plus strict re-validation against the target schema from
`model_database_records.py` (`strictParse` is the success of
`StableDiffusionModelReference(**json.loads(s))`). -/
structure ExternalFns where
  model_name_to_showcase_folder_name : String → String
  quote : String → String
  urljoin : String → String → String
  basename : String → String
  githubRepo : String
  parseHost : String → Option String
  serialize : Legacy_StableDiffusion_ModelReference → String
  strictParse : String → Bool

/-- Class attribute `default_showcase_folder_name` (line 169). -/
def default_showcase_folder_name : String := "showcase"

/-- Method `get_existing_showcases` (lines 363-372): key each pre-pass
folder (supplied with its on-disk file listing, since the glob itself is a
filesystem effect) by its normalised name. -/
def get_existing_showcases (E : ExternalFns) (folders : List (String × List String)) :
    List (String × List String) :=
  folders.foldl (fun m p => dictInsert m (E.model_name_to_showcase_folder_name p.1) p.2) []

/-- URL built for one showcase file (lines 254-262): the GitHub repo base
joined with `showcase/<expected folder>/<percent-encoded file name>`. -/
def mkShowcaseUrl (E : ExternalFns) (expectedFolder file : String) : String :=
  E.urljoin E.githubRepo
    (default_showcase_folder_name ++ "/" ++ expectedFolder ++ "/" ++ E.quote (E.basename file))

/-- Lines 238-263: per-record showcase handling.  The expected folder is
always created (traced in `createdFolders`); a record that declares a
non-empty showcase list has that list discarded and rebuilt from the
pre-pass on-disk listing, and when the expected folder is absent from that
listing the subscript on line 253 raises an uncaught `KeyError`. -/
def showcaseStep (E : ExternalFns) (existing : List (String × List String))
    (st : ConvState) (key : String) (r : Legacy_StableDiffusion_ModelRecord) :
    StepResult Legacy_StableDiffusion_ModelRecord :=
  let expected := E.model_name_to_showcase_folder_name key
  let st := { st with createdFolders := st.createdFolders ++ [expected] }
  match r.showcases with
  | some (s0 :: srest) =>
    let st := if (s0 :: srest).any (fun s => strContains s "huggingface") then
        add_validation_error_to_log st key (key ++ " has a huggingface showcase.")
      else st
    let st := if (List.lookup expected existing).isNone then
        add_validation_error_to_log st key
          (key ++ " has no showcase folder. Expected: " ++ expected)
      else st
    match List.lookup expected existing with
    | none => .fatal .showcaseKeyError st
    | some files =>
      .ok st { r with showcases := some (files.map (mkShowcaseUrl E expected)) }
  | some [] => .ok st r
  | none => .ok st r

/-- The `"files"` branch of `normalize_and_convert_config_entries` (lines
409-428).  All findings are raw `print` calls; a wrong element type raises
`TypeError` (line 413). -/
def checkFilesList (st : ConvState) (key : String) : List ConfigValue → StepResult Unit
  | [] => .ok st ()
  | v :: rest =>
    match v with
    | .download _ =>
      .fatal .typeErrorFiles
        (addPrint st (key ++ " is in \x27files\x27 but isn\x27t a `Legacy_Config_FileRecord`!"))
    | .file cf =>
      let st := if cf.path == "" then
          addPrint st (key ++ " has a config file with no path.")
        else st
      if strContains cf.path ".yaml" then
        let st := if cf.path != "v2-inference-v.yaml" && cf.path != "v1-inference.yaml" then
            addPrint st (key ++ " has a non-standard config.")
          else st
        checkFilesList st key rest
      else
        let st := if !strContains cf.path ".ckpt" then
            addPrint st (key ++ " does not have a ckpt file specified.")
          else st
        let st := match cf.sha256sum with
          | none => addPrint st (key ++ " has a config file with no sha256sum.")
          | some s =>
            if s == "" then addPrint st (key ++ " has a config file with no sha256sum.")
            else if s.length != 64 then
              addPrint st (key ++ " has a config file with an invalid sha256sum.")
            else st
        checkFilesList st key rest

/-- Cons a checked value onto the value list inside a step result,
propagating an abort unchanged. -/
def consValue (d : ConfigValue) :
    StepResult (List (String × Nat) × List ConfigValue) →
    StepResult (List (String × Nat) × List ConfigValue)
  | .ok st (h, vs) => .ok st (h, d :: vs)
  | .fatal r s => .fatal r s

/-- Cons a checked sub-collection onto the rebuilt config mapping inside a
step result, propagating an abort unchanged. -/
def consEntry (k : String) (vs : List ConfigValue) :
    StepResult (List (String × List ConfigValue) × List (String × Nat)) →
    StepResult (List (String × List ConfigValue) × List (String × Nat))
  | .ok st (es, h) => .ok st ((k, vs) :: es, h)
  | .fatal r s => .fatal r s

/-- The `"download"` branch of `normalize_and_convert_config_entries`
(lines 430-452).  Findings are raw `print` calls; an empty or missing URL
skips host extraction for that entry only; a URL on which host extraction
raises aborts the run (`raise e`, line 452); a `civitai` URL sets the
known-slow flag on the aliased record.  Returns the updated host counter
and the (possibly mutated) download list. -/
def checkDownloadList (E : ExternalFns) (st : ConvState) (key : String)
    (hosts : List (String × Nat)) :
    List ConfigValue → StepResult (List (String × Nat) × List ConfigValue)
  | [] => .ok st (hosts, [])
  | v :: rest =>
    match v with
    | .file _ =>
      .fatal .typeErrorDownload
        (addPrint st (key ++ " is in \x27download\x27 but isn\x27t a `Legacy_Config_DownloadRecord`!"))
    | .download d =>
      let st := if d.file_name == "" then
          addPrint st (key ++ " has a download with no file_name.")
        else st
      let st := if d.file_path.isNone || !(d.file_path == some "") then
          addPrint st (key ++ " has a download with a file_path.")
        else st
      match d.file_url with
      | none =>
        let st := addPrint st (key ++ " has a download with no file_url.")
        consValue (.download d) (checkDownloadList E st key hosts rest)
      | some u =>
        if u == "" then
          let st := addPrint st (key ++ " has a download with no file_url.")
          consValue (.download d) (checkDownloadList E st key hosts rest)
        else
          let d2 := if strContains u "civitai" then { d with known_slow_download := true } else d
          match E.parseHost u with
          | some host =>
            consValue (.download d2) (checkDownloadList E st key (dictBump hosts host) rest)
          | none =>
            .fatal .hostParseError
              (addPrint st (key ++ " has a download with an invalid file_url."))

/-- Loop of `normalize_and_convert_config_entries` (lines 389-454) over the
config mapping, dispatching on the sub-collection key and leaving unknown
keys untouched.  Returns the rebuilt mapping (download entries may have
been mutated) together with the host counter. -/
def checkConfigEntriesAux (E : ExternalFns) (st : ConvState) (key : String)
    (hosts : List (String × Nat)) :
    List (String × List ConfigValue) →
    StepResult (List (String × List ConfigValue) × List (String × Nat))
  | [] => .ok st ([], hosts)
  | (k, vs) :: rest =>
    if k == "files" then
      match checkFilesList st key vs with
      | .fatal r s2 => .fatal r s2
      | .ok st2 _ => consEntry k vs (checkConfigEntriesAux E st2 key hosts rest)
    else if k == "download" then
      match checkDownloadList E st key hosts vs with
      | .fatal r s2 => .fatal r s2
      | .ok st2 (h2, vs2) => consEntry k vs2 (checkConfigEntriesAux E st2 key h2 rest)
    else
      consEntry k vs (checkConfigEntriesAux E st key hosts rest)

/-- Method `normalize_and_convert_config_entries` (lines 389-454). -/
def normalize_and_convert_config_entries (E : ExternalFns) (st : ConvState)
    (key : String) (entries : List (String × List ConfigValue)) :
    StepResult (List (String × List ConfigValue) × List (String × Nat)) :=
  checkConfigEntriesAux E st key [] entries

/-- The four frequency tables local to `normalize_and_convert`
(lines 191-198). -/
structure Aggs where
  all_baseline_types : List (String × Nat)
  all_styles : List (String × Nat)
  all_tags : List (String × Nat)
  all_model_hosts : List (String × Nat)
deriving DecidableEq

/-- All four frequency tables start empty. -/
def initAggs : Aggs := ⟨[], [], [], []⟩

/-- Loop body of `normalize_and_convert` for one yielded record (lines
205-288).  The `ValueError` guards on lines 207-213 cannot fire in this
model, where every yielded record is a present stable-diffusion record.
Record mutations (baseline, showcases, download flags) are stored back
into `all_model_records` at each mutation point, modelling the Python
aliasing of the stored object. -/
def recordBody (E : ExternalFns) (existing : List (String × List String))
    (st : ConvState) (ag : Aggs) (key : String)
    (r : Legacy_StableDiffusion_ModelRecord) : StepResult Aggs :=
  let st := generic_record_sanity_checks st key r
  let ag := { ag with all_styles := dictBump ag.all_styles r.style }
  let st := if r.type != "ckpt" then
      add_validation_error_to_log st key (key ++ " is not a ckpt!")
    else st
  let r := { r with baseline := convert_legacy_baseline r.baseline }
  let st := storeRecord st key r
  let ag := { ag with all_baseline_types := dictBump ag.all_baseline_types r.baseline }
  match showcaseStep E existing st key r with
  | .fatal rr s2 => .fatal rr s2
  | .ok st r =>
    let st := storeRecord st key r
    let ag := match r.tags with
      | none => ag
      | some ts => { ag with all_tags := ts.foldl dictBump ag.all_tags }
    let st := if r.config.length == 0 then
        add_validation_error_to_log st key (key ++ " has no config.")
      else st
    match normalize_and_convert_config_entries E st key r.config with
    | .fatal rr s2 => .fatal rr s2
    | .ok st (entries2, hosts) =>
      let r := { r with config := entries2 }
      let st := storeRecord st key r
      let ag := { ag with
        all_model_hosts := hosts.foldl (fun m p => dictBump m p.1) ag.all_model_hosts }
      .ok st ag

/-- The record-streaming loop of `normalize_and_convert` (lines 203-288):
each raw record goes through the iterator body; a skipped record leaves the
loop running, an uncaught exception stops everything. -/
def runLoop (E : ExternalFns) (existing : List (String × List String))
    (st : ConvState) (ag : Aggs) :
    List (String × RawRecord) → StepResult Aggs
  | [] => .ok st ag
  | (key, raw) :: rest =>
    match processRecord st key raw with
    | .fatal r s2 => .fatal r s2
    | .ok st2 none => runLoop E existing st2 ag rest
    | .ok st2 (some r) =>
      match recordBody E existing st2 ag key r with
      | .fatal rr s3 => .fatal rr s3
      | .ok st3 ag2 => runLoop E existing st3 ag2 rest

/-- One showcase folder observed by the end-of-run glob (lines 290-312):
its basename, whether the path is a plain file, and whether the directory
is empty.  The glob is a filesystem effect, so the listing is a run
input. -/
structure FinalFolder where
  name : String
  isFile : Bool
  isEmpty : Bool
deriving DecidableEq

/-- Post-pass folder reconciliation (lines 290-312): flag empty showcase
folders and folders with no corresponding processed record; findings only,
keyed by the folder name. -/
def postPassFolders (E : ExternalFns) (st : ConvState)
    (folders : List FinalFolder) : ConvState :=
  let st := folders.foldl (fun st f =>
    if f.isFile then st
    else if f.isEmpty then
      add_validation_error_to_log st f.name
        ("showcase folder \x27" ++ f.name ++ "\x27 is empty.")
    else st) st
  let dirNames := (folders.filter (fun f => !f.isFile)).map (fun f => f.name)
  let expected := st.all_model_records.map (fun p => E.model_name_to_showcase_folder_name p.1)
  dirNames.foldl (fun st n =>
    if expected.contains n then st
    else add_validation_error_to_log st n
      ("folder \x27" ++ n ++ "\x27 is not in the model records.")) st

/-- Lines 329-339: assemble the aggregate output object.  The `isinstance`
filter on the stored records is the identity here because every stored
record is a stable-diffusion record. -/
def buildReference (ag : Aggs) (st : ConvState) : Legacy_StableDiffusion_ModelReference :=
  { baseline_types := ag.all_baseline_types
    styles := ag.all_styles
    tags := ag.all_tags
    model_hosts := ag.all_model_hosts
    models := st.all_model_records }

/-- The filesystem inputs and raw database consumed by one conversion run:
the parsed legacy JSON mapping, the pre-pass showcase listing, and the
end-of-run showcase listing. -/
structure RunInputs where
  records : List (String × RawRecord)
  preFolders : List (String × List String)
  finalFolders : List FinalFolder

/-- Outcome of a whole run: the final shared state plus the trace of every
write of the converted database file. -/
inductive RunResult where
  | success (st : ConvState) (writes : List String)
  | failure (r : AbortReason) (st : ConvState) (writes : List String)
deriving DecidableEq

/-- Lines 290-361 after the record loop: post-pass folder checks, assembly,
serialisation, strict re-validation, and - only on success - the single
whole-file write.  A failed re-validation re-raises the `ValidationError`
and writes nothing. -/
def finalStage (E : ExternalFns) (I : RunInputs) (st : ConvState) (ag : Aggs) : RunResult :=
  let st := postPassFolders E st I.finalFolders
  let s := E.serialize (buildReference ag st)
  if E.strictParse s then .success st [s]
  else .failure .finalValidationError st []

/-- Method `LegacyStableDiffusionConverter.normalize_and_convert`
(lines 189-361), end to end over explicit inputs. -/
def normalize_and_convert (E : ExternalFns) (I : RunInputs) (st : ConvState) : RunResult :=
  let existing := get_existing_showcases E I.preFolders
  match runLoop E existing st initAggs I.records with
  | .fatal r st2 => .failure r st2 []
  | .ok st2 ag => finalStage E I st2 ag

/-- The converter state left by a run. -/
def stateOfRun : RunResult → ConvState
  | .success st _ => st
  | .failure _ st _ => st

/-- The file writes performed by a run. -/
def writesOfRun : RunResult → List String
  | .success _ w => w
  | .failure _ _ w => w

/-- Whether a run returned successfully. -/
def isSuccess : RunResult → Bool
  | .success _ _ => true
  | .failure _ _ _ => false

/-- The abort reason of a step result, when it aborted. -/
def fatalReasonOf {α : Type} : StepResult α → Option AbortReason
  | .ok _ _ => none
  | .fatal r _ => some r

/-- A raw JSON object that parses as exactly the given file record. -/
def mkRawFile (f : Legacy_Config_FileRecord) : RawObject := ⟨some f, none⟩

/-- A raw JSON object that parses as exactly the given download record. -/
def mkRawDownload (d : Legacy_Config_DownloadRecord) : RawObject := ⟨none, some d⟩

/-- A raw legacy record in the canonical shape: a `"files"` sub-collection
followed by a `"download"` sub-collection, with the remaining fields
parsing successfully. -/
def mkLegacyRaw (fs : List Legacy_Config_FileRecord)
    (ds : List Legacy_Config_DownloadRecord) (flds : RecordFields) : RawRecord :=
  ⟨[("files", fs.map mkRawFile), ("download", ds.map mkRawDownload)], some flds⟩

/-- One step of the checksum lookup-table construction (line 105), skipping
YAML paths. -/
def shaStep (sha : List (String × Option String)) (f : Legacy_Config_FileRecord) :
    List (String × Option String) :=
  if strContains f.path ".yaml" then sha else dictInsert sha f.path f.sha256sum

/-- The checksum lookup table built from a list of parsed file records. -/
def buildShaTable (fs : List Legacy_Config_FileRecord) : List (String × Option String) :=
  fs.foldl shaStep []

/-- The checksum the claim mandates for a download descriptor: that of the
file descriptor whose path equals the download file name, defined when
exactly one such descriptor exists. -/
def matchedSha (fs : List Legacy_Config_FileRecord)
    (d : Legacy_Config_DownloadRecord) : Option (Option String) :=
  match fs.filter (fun g => g.path == d.file_name) with
  | [f] => some f.sha256sum
  | _ => none

/-- Decidable rendering of the well-formedness premise exactly as the claim
words it: every download descriptor file name appearing in the config block
has a matching non-YAML file descriptor path somewhere in the config
block. -/
def claimWellFormedConfig (config : List (String × List RawObject)) : Bool :=
  let fileRecs := ((config.filter (fun p => p.1 == "files")).map
    (fun p => p.2.filterMap RawObject.asFile)).flatten
  let dlRecs := ((config.filter (fun p => p.1 == "download")).map
    (fun p => p.2.filterMap RawObject.asDownload)).flatten
  dlRecs.all (fun d =>
    fileRecs.any (fun f => f.path == d.file_name && !strContains f.path ".yaml"))

/-- A concrete, fully computable instance of the external collaborators,
used to evaluate the model on closed inputs. -/
def idExternal : ExternalFns :=
  { model_name_to_showcase_folder_name := fun s => s
    quote := fun s => s
    urljoin := fun a b => a ++ b
    basename := fun s => s
    githubRepo := "repo/"
    parseHost := fun s => some s
    serialize := fun _ => "db"
    strictParse := fun _ => true }

/-- Sample scalar fields whose record passes every generic sanity check
when stored under the key `"k"`. -/
def sampleFields : RecordFields :=
  { name := "k", type := "ckpt", baseline := "b", style := "s"
    description := some "d", available := false, download_all := false
    showcases := none, tags := none }

/-- A download descriptor whose file name has a matching file descriptor. -/
def sampleDownload : Legacy_Config_DownloadRecord :=
  { file_name := "m.ckpt", file_path := some "", file_url := some "u"
    sha256sum := none, known_slow_download := false }

/-- A file descriptor matching `sampleDownload`. -/
def sampleFile : Legacy_Config_FileRecord :=
  { path := "m.ckpt", sha256sum := some "abc" }

/-- A raw record whose config lists the `"download"` sub-collection before
the `"files"` sub-collection; both descriptors match by file name. -/
def downloadFirstRaw : RawRecord :=
  ⟨[("download", [mkRawDownload sampleDownload]), ("files", [mkRawFile sampleFile])],
    some sampleFields⟩

/-- A raw record whose single download descriptor has no matching file
descriptor at all. -/
def missingKeyRaw : RawRecord :=
  ⟨[("files", []), ("download", [mkRawDownload sampleDownload])], some sampleFields⟩

/-- A well-formed raw record stored under key `"b2"`. -/
def goodRaw : RawRecord := mkLegacyRaw [sampleFile] [sampleDownload] sampleFields

/-- Run inputs holding a record with a missing checksum lookup key followed
by a perfectly well-formed record. -/
def missingKeyRunInputs : RunInputs :=
  { records := [("k", missingKeyRaw), ("k2", goodRaw)]
    preFolders := []
    finalFolders := [] }

/-- A download descriptor carrying a non-empty `file_path` override, which
the config checker flags. -/
def filePathDownload : Legacy_Config_DownloadRecord :=
  { file_name := "m.ckpt", file_path := some "x", file_url := some "u"
    sha256sum := none, known_slow_download := false }

/-- Run inputs holding one otherwise clean record whose download descriptor
carries a non-empty `file_path` override. -/
def filePathRunInputs : RunInputs :=
  { records := [("k", mkLegacyRaw [sampleFile] [filePathDownload] sampleFields)]
    preFolders := []
    finalFolders := [] }

/-- The run performed on `filePathRunInputs` from a fresh process state. -/
def filePathRun : RunResult :=
  normalize_and_convert idExternal filePathRunInputs classInitialState

/-- A record that declares no showcase list at all. -/
def noShowcaseRecord : Legacy_StableDiffusion_ModelRecord :=
  mkModelRecord sampleFields [sampleDownload]

/-- Run inputs with no records at all. -/
def emptyRunInputs : RunInputs := { records := [], preFolders := [], finalFolders := [] }

/-- External collaborators whose host extraction always raises. -/
def failingHostExternal : ExternalFns :=
  { idExternal with parseHost := fun _ => none }

/-- The run on the single well-formed record when host extraction raises. -/
def hostFailRun : RunResult :=
  normalize_and_convert failingHostExternal
    { records := [("k", goodRaw)], preFolders := [], finalFolders := [] }
    classInitialState

/-- The value carried by a non-aborting step, `none` on an abort. -/
def stepValue {α : Type} : StepResult α → Option α
  | .ok _ a => some a
  | .fatal _ _ => none

/-- The converter state left by a step, aborted or not. -/
def stepState {α : Type} : StepResult α → ConvState
  | .ok st _ => st
  | .fatal _ st => st

/-- A record that declares one (stale) showcase URL. -/
def declaredShowcaseRecord : Legacy_StableDiffusion_ModelRecord :=
  { noShowcaseRecord with showcases := some ["old-url"] }

/-- A download descriptor with a non-empty `file_path` override and no
URL: the checker prints two findings on it and moves on. -/
def noUrlDownload : Legacy_Config_DownloadRecord :=
  { file_name := "m.ckpt", file_path := some "x", file_url := none
    sha256sum := none, known_slow_download := false }

/-- A download descriptor whose URL is present but empty: host extraction
is skipped for it. -/
def emptyUrlDownload : Legacy_Config_DownloadRecord :=
  { file_name := "m.ckpt", file_path := some "", file_url := some ""
    sha256sum := none, known_slow_download := false }

/-- The normalised record the iterator produces from `goodRaw`. -/
def convertedGoodRecord : Legacy_StableDiffusion_ModelRecord :=
  mkModelRecord sampleFields [{ sampleDownload with sha256sum := some "abc" }]

/-- External collaborators whose strict target-schema re-validation always
fails. -/
def alwaysInvalidExternal : ExternalFns :=
  { idExternal with strictParse := fun _ => false }

/-- C5: `convert_legacy_baseline` maps exactly the three legacy baseline
strings to their three canonical identifiers, returns every other string
unchanged, and is idempotent on every input. -/
theorem convert_legacy_baseline_spec (s : String)
    (h1 : s ≠ "stable diffusion 1") (h2 : s ≠ "stable diffusion 2")
    (h3 : s ≠ "stable diffusion 2 512") :
    convert_legacy_baseline "stable diffusion 1" = "stable_diffusion_1" ∧
    convert_legacy_baseline "stable diffusion 2" = "stable_diffusion_2_768" ∧
    convert_legacy_baseline "stable diffusion 2 512" = "stable_diffusion_2_512" ∧
    convert_legacy_baseline s = s ∧
    (∀ t, convert_legacy_baseline (convert_legacy_baseline t) = convert_legacy_baseline t) := by
  refine ⟨rfl, rfl, rfl, ?_, ?_⟩
  · have e1 : (s == "stable diffusion 1") = false := beq_eq_false_iff_ne.mpr h1
    have e2 : (s == "stable diffusion 2") = false := beq_eq_false_iff_ne.mpr h2
    have e3 : (s == "stable diffusion 2 512") = false := beq_eq_false_iff_ne.mpr h3
    simp [convert_legacy_baseline, e1, e2, e3]
  · intro t
    by_cases ha : t = "stable diffusion 1"
    · subst ha; rfl
    by_cases hb : t = "stable diffusion 2"
    · subst hb; rfl
    by_cases hc : t = "stable diffusion 2 512"
    · subst hc; rfl
    have ea : (t == "stable diffusion 1") = false := beq_eq_false_iff_ne.mpr ha
    have eb : (t == "stable diffusion 2") = false := beq_eq_false_iff_ne.mpr hb
    have ec : (t == "stable diffusion 2 512") = false := beq_eq_false_iff_ne.mpr hc
    simp [convert_legacy_baseline, ea, eb, ec]

/-- Witness for C5, at the unrecognised baseline string `"x"`. -/
theorem convert_legacy_baseline_spec_witness :
    convert_legacy_baseline "stable diffusion 1" = "stable_diffusion_1" ∧
    convert_legacy_baseline "stable diffusion 2" = "stable_diffusion_2_768" ∧
    convert_legacy_baseline "stable diffusion 2 512" = "stable_diffusion_2_512" ∧
    convert_legacy_baseline "x" = "x" ∧
    (∀ t, convert_legacy_baseline (convert_legacy_baseline t) = convert_legacy_baseline t) :=
  convert_legacy_baseline_spec "x" (by decide) (by decide) (by decide)

/-- Lookup after a dict insertion: the inserted key maps to the new value,
every other key is unaffected. -/
theorem lookup_dictInsert {α : Type} (m : List (String × α)) (k : String) (v : α) (k' : String) :
    List.lookup k' (dictInsert m k v) = if k' == k then some v else List.lookup k' m := by
  induction m with
  | nil =>
    by_cases h : k' = k
    · simp [dictInsert, List.lookup, h]
    · simp [dictInsert, List.lookup, h, beq_eq_false_iff_ne.mpr h]
  | cons p rest ih =>
    obtain ⟨k0, v0⟩ := p
    simp only [dictInsert]
    by_cases h0 : k0 = k
    · subst h0
      simp only [beq_self_eq_true, if_true, List.lookup]
      by_cases h' : k' = k0 <;> simp [h', beq_eq_false_iff_ne.mpr, List.lookup]
    · simp only [beq_eq_false_iff_ne.mpr h0, Bool.false_eq_true, if_false, List.lookup, ih]
      by_cases h1 : k' = k0
      · subst h1
        simp [beq_eq_false_iff_ne.mpr h0, List.lookup]
      · simp [beq_eq_false_iff_ne.mpr h1, List.lookup]

/-- Running the `"files"` loop over raw objects that all parse yields the
checksum fold plus the cleared non-YAML records, with no exception. -/
theorem processFilesList_map (l : List Legacy_Config_FileRecord)
    (sha : List (String × Option String)) (fs : List Legacy_Config_FileRecord) :
    processFilesList (l.map mkRawFile) sha fs =
      .ok (l.foldl shaStep sha,
        fs ++ (l.filter (fun f => !strContains f.path ".yaml")).map
          (fun f => { f with sha256sum := none })) := by
  induction l generalizing sha fs with
  | nil => simp [processFilesList]
  | cons f rest ih =>
    simp only [List.map_cons, processFilesList, mkRawFile]
    by_cases hy : strContains f.path ".yaml" = true
    · simp [hy, ih, List.filter_cons, shaStep]
    · have hy' : strContains f.path ".yaml" = false := by
        rwa [Bool.not_eq_true] at hy
      simp [hy', ih, List.filter_cons, shaStep]

/-- A name matched by no file record is untouched by the checksum fold. -/
theorem lookup_foldl_shaStep_not_mem (l : List Legacy_Config_FileRecord)
    (name : String) (h : ∀ f ∈ l, (f.path == name) = false)
    (sha : List (String × Option String)) :
    List.lookup name (l.foldl shaStep sha) = List.lookup name sha := by
  induction l generalizing sha with
  | nil => rfl
  | cons f rest ih =>
    rw [List.foldl_cons, ih (fun g hg => h g (List.mem_cons_of_mem _ hg))]
    unfold shaStep
    by_cases hy : strContains f.path ".yaml" = true
    · simp [hy]
    · have hne : f.path ≠ name := by
        have := h f (List.mem_cons_self _ _)
        exact ne_of_beq_false this
      simp [hy, lookup_dictInsert, beq_eq_false_iff_ne.mpr (Ne.symm hne)]

/-- A name matched by exactly one file record, a non-YAML one, looks up to
exactly that record's checksum in the fold. -/
theorem lookup_foldl_shaStep_unique (l : List Legacy_Config_FileRecord)
    (name : String) (f : Legacy_Config_FileRecord)
    (hu : l.filter (fun g => g.path == name) = [f])
    (hy : strContains f.path ".yaml" = false)
    (sha : List (String × Option String)) :
    List.lookup name (l.foldl shaStep sha) = some f.sha256sum := by
  induction l generalizing sha with
  | nil => simp at hu
  | cons g rest ih =>
    rw [List.foldl_cons]
    by_cases hg : (g.path == name) = true
    · rw [List.filter_cons_of_pos (by simpa using hg)] at hu
      have hgf : g = f := by injection hu
      have hrest : rest.filter (fun g => g.path == name) = [] := by injection hu
      subst hgf
      have hstep : shaStep sha g = dictInsert sha g.path g.sha256sum := by
        simp [shaStep, hy]
      rw [hstep, lookup_foldl_shaStep_not_mem rest name ?hnm]
      · rw [lookup_dictInsert]
        have : (name == g.path) = true := by
          have := eq_of_beq hg
          simp [this]
        simp [this]
      · intro x hx
        by_contra hb
        have hxt : (x.path == name) = true := by
          revert hb
          cases (x.path == name) <;> simp
        have : x ∈ rest.filter (fun g => g.path == name) :=
          List.mem_filter.mpr ⟨hx, hxt⟩
        rw [hrest] at this
        simp at this
    · rw [List.filter_cons_of_neg (by simpa using hg)] at hu
      exact ih hu (shaStep sha g)

/-- Running the `"download"` loop over raw objects that all parse, when
every file name is present in the lookup table, rewrites every checksum to
its table entry, with no exception. -/
theorem processDownloadList_map (ds : List Legacy_Config_DownloadRecord)
    (sha : List (String × Option String)) (acc : List Legacy_Config_DownloadRecord)
    (h : ∀ d ∈ ds, (List.lookup d.file_name sha).isSome = true) :
    processDownloadList (ds.map mkRawDownload) sha acc =
      .ok (acc ++ ds.map (fun d =>
        { d with sha256sum := (List.lookup d.file_name sha).getD none })) := by
  induction ds generalizing acc with
  | nil => simp [processDownloadList]
  | cons d rest ih =>
    have hd := h d (List.mem_cons_self _ _)
    obtain ⟨v, hv⟩ := Option.isSome_iff_exists.mp hd
    simp only [List.map_cons, processDownloadList, mkRawDownload, hv]
    rw [ih _ (fun x hx => h x (List.mem_cons_of_mem _ hx))]
    simp [hv]

/-- The config-entry loop of the iterator on the canonical two-collection
shape reduces to the files pass followed by the download pass. -/
theorem processConfigEntries_canonical (fsr dsr : List RawObject)
    (sha : List (String × Option String)) (fs0 : List Legacy_Config_FileRecord)
    (ds0 : List Legacy_Config_DownloadRecord) :
    processConfigEntries [("files", fsr), ("download", dsr)] sha fs0 ds0 =
      match processFilesList fsr sha fs0 with
      | .err e => .err e
      | .ok (sha2, fs2) =>
        match processDownloadList dsr sha2 ds0 with
        | .err e => .err e
        | .ok ds2 => .ok (sha2, fs2, ds2) := rfl

/-- C1 (amended): for a legacy record whose config block consists of a
`"files"` sub-collection followed by a `"download"` sub-collection, with
all raw entries parsing and every download file name matching exactly one
file descriptor path, that one non-YAML, the iterator yields the record,
every download descriptor carries exactly the matching file descriptor's
checksum, and the rebuilt config block holds only the download
sub-collection and no file descriptors. -/
theorem iterator_checksum_transfer (st : ConvState) (key : String)
    (flds : RecordFields) (fs : List Legacy_Config_FileRecord)
    (ds : List Legacy_Config_DownloadRecord)
    (hwf : ∀ d ∈ ds, ∃ f, fs.filter (fun g => g.path == d.file_name) = [f] ∧
      strContains f.path ".yaml" = false) :
    ∃ st2, processRecord st key (mkLegacyRaw fs ds flds) =
      .ok st2 (some (mkModelRecord flds (ds.map (fun d =>
        { d with sha256sum := (matchedSha fs d).getD none })))) ∧
      (mkModelRecord flds (ds.map (fun d =>
        { d with sha256sum := (matchedSha fs d).getD none }))).config =
      [("download", (ds.map (fun d =>
        { d with sha256sum := (matchedSha fs d).getD none })).map ConfigValue.download)] := by
  have hsome : ∀ d ∈ ds, (List.lookup d.file_name (fs.foldl shaStep [])).isSome = true := by
    intro d hd
    obtain ⟨f, hu, hy⟩ := hwf d hd
    rw [lookup_foldl_shaStep_unique fs d.file_name f hu hy []]
    rfl
  have hmap : ds.map (fun d =>
      { d with sha256sum := (List.lookup d.file_name (fs.foldl shaStep [])).getD none }) =
      ds.map (fun d => { d with sha256sum := (matchedSha fs d).getD none }) := by
    apply List.map_congr_left
    intro d hd
    obtain ⟨f, hu, hy⟩ := hwf d hd
    rw [lookup_foldl_shaStep_unique fs d.file_name f hu hy []]
    simp [matchedSha, hu]
  refine ⟨storeRecord st key (mkModelRecord flds (ds.map (fun d =>
    { d with sha256sum := (matchedSha fs d).getD none }))), ?_, rfl⟩
  unfold processRecord mkLegacyRaw
  simp only [processConfigEntries_canonical, processFilesList_map,
    processDownloadList_map ds _ [] hsome]
  simp [hmap]

/-- Witness for C1 (amended) at one matching file/download pair. -/
theorem iterator_checksum_transfer_witness :
    ∃ st2, processRecord classInitialState "k"
        (mkLegacyRaw [sampleFile] [sampleDownload] sampleFields) =
      .ok st2 (some (mkModelRecord sampleFields ([sampleDownload].map (fun d =>
        { d with sha256sum := (matchedSha [sampleFile] d).getD none })))) ∧
      (mkModelRecord sampleFields ([sampleDownload].map (fun d =>
        { d with sha256sum := (matchedSha [sampleFile] d).getD none }))).config =
      [("download", ([sampleDownload].map (fun d =>
        { d with sha256sum := (matchedSha [sampleFile] d).getD none })).map ConfigValue.download)] :=
  iterator_checksum_transfer classInitialState "k" sampleFields [sampleFile] [sampleDownload]
    (by
      intro d hd
      simp only [List.mem_singleton] at hd
      subst hd
      exact ⟨sampleFile, by rfl, by rfl⟩)

/-- C1 (counterexample): a config block that is well-formed exactly as the
claim words it, but lists the `"download"` sub-collection before the
`"files"` sub-collection, makes the checksum lookup on line 111 raise
`KeyError`: the record is never normalised at all, so its downloads never
receive the matching checksum. -/
theorem iterator_download_first_counterexample :
    claimWellFormedConfig downloadFirstRaw.config = true ∧
    processRecord classInitialState "alpha" downloadFirstRaw =
      .fatal .shaLookupKeyError classInitialState := by
  exact ⟨rfl, rfl⟩

/-- A YAML-path file record (used to exercise the YAML skip branch). -/
def yamlFile : Legacy_Config_FileRecord := { path := "v1-inference.yaml", sha256sum := some "z" }

/-- Dropping a YAML-path raw file object anywhere in a `"files"` list does
not change the files pass at all. -/
theorem processFilesList_skip (f : Legacy_Config_FileRecord)
    (hy : strContains f.path ".yaml" = true) (l1 l2 : List RawObject)
    (sha : List (String × Option String)) (fs : List Legacy_Config_FileRecord) :
    processFilesList (l1 ++ mkRawFile f :: l2) sha fs = processFilesList (l1 ++ l2) sha fs := by
  induction l1 generalizing sha fs with
  | nil => simp [processFilesList, mkRawFile, hy]
  | cons raw l1 ih =>
    simp only [List.cons_append, processFilesList]
    cases hraw : raw.asFile with
    | none => rfl
    | some g =>
      by_cases hg : strContains g.path ".yaml" = true
      · simp [hg, ih]
      · simp only [Bool.not_eq_true] at hg
        simp [hg, ih]

/-- Dropping a YAML-path raw file object from any `"files"` sub-collection
does not change the whole config-entry pass of the iterator. -/
theorem processConfigEntries_files_skip (f : Legacy_Config_FileRecord)
    (hy : strContains f.path ".yaml" = true)
    (pre post : List (String × List RawObject)) (l1 l2 : List RawObject)
    (sha : List (String × Option String)) (fs : List Legacy_Config_FileRecord)
    (ds : List Legacy_Config_DownloadRecord) :
    processConfigEntries (pre ++ ("files", l1 ++ mkRawFile f :: l2) :: post) sha fs ds =
    processConfigEntries (pre ++ ("files", l1 ++ l2) :: post) sha fs ds := by
  induction pre generalizing sha fs ds with
  | nil =>
    simp only [List.nil_append, processConfigEntries, beq_self_eq_true, if_true]
    rw [processFilesList_skip f hy]
  | cons p pre ih =>
    obtain ⟨k, objs⟩ := p
    simp only [List.cons_append, processConfigEntries]
    by_cases hk : (k == "files") = true
    · simp only [hk, if_true]
      cases hres : processFilesList objs sha fs with
      | err e => rfl
      | ok a =>
        obtain ⟨sha2, fs2⟩ := a
        exact ih sha2 fs2 ds
    · simp only [hk, Bool.false_eq_true, if_false]
      by_cases hk2 : (k == "download") = true
      · simp only [hk2, if_true]
        cases hres : processDownloadList objs sha ds with
        | err e => rfl
        | ok ds2 => exact ih sha fs ds2
      · simp only [hk2, Bool.false_eq_true, if_false]
        exact ih sha fs ds

/-- C6: a file descriptor whose path contains a YAML extension is skipped
entirely by the iterator: processing a record with it present is exactly
the same computation as processing the record with it removed, so it
contributes no checksum lookup-table entry and never appears in the
normalised output. -/
theorem yaml_file_descriptor_skipped (f : Legacy_Config_FileRecord)
    (hy : strContains f.path ".yaml" = true) (st : ConvState) (key : String)
    (pre post : List (String × List RawObject)) (l1 l2 : List RawObject)
    (rest : Option RecordFields) :
    processRecord st key ⟨pre ++ ("files", l1 ++ mkRawFile f :: l2) :: post, rest⟩ =
    processRecord st key ⟨pre ++ ("files", l1 ++ l2) :: post, rest⟩ := by
  unfold processRecord
  rw [processConfigEntries_files_skip f hy]
  simp [List.length_append]

/-- Witness for C6 at a concrete YAML config file record. -/
theorem yaml_file_descriptor_skipped_witness :
    strContains yamlFile.path ".yaml" = true ∧
    processRecord classInitialState "k"
      ⟨[("files", [mkRawFile yamlFile, mkRawFile sampleFile]),
        ("download", [mkRawDownload sampleDownload])], some sampleFields⟩ =
    processRecord classInitialState "k"
      ⟨[("files", [mkRawFile sampleFile]),
        ("download", [mkRawDownload sampleDownload])], some sampleFields⟩ :=
  ⟨by rfl, yaml_file_descriptor_skipped yamlFile (by rfl) classInitialState "k"
    [] [("download", [mkRawDownload sampleDownload])] [] [mkRawFile sampleFile]
    (some sampleFields)⟩

/-- C2 (amended): a download descriptor whose file name is missing from the
checksum lookup table raises an uncaught `KeyError`: the iterator step
aborts with nothing logged for the record and the record not stored, the
streaming loop stops immediately so subsequent records are never
processed, and an aborted run writes no output file. -/
theorem missing_sha_key_aborts_run :
    (∀ (st : ConvState) (key : String) (flds : RecordFields)
        (fs : List Legacy_Config_FileRecord) (d : Legacy_Config_DownloadRecord),
      List.lookup d.file_name (buildShaTable fs) = none →
      processRecord st key (mkLegacyRaw fs [d] flds) = .fatal .shaLookupKeyError st) ∧
    (∀ (E : ExternalFns) (existing : List (String × List String)) (st : ConvState)
        (ag : Aggs) (key : String) (raw : RawRecord)
        (rest : List (String × RawRecord)) (r : AbortReason) (st2 : ConvState),
      processRecord st key raw = .fatal r st2 →
      runLoop E existing st ag ((key, raw) :: rest) = .fatal r st2) ∧
    (∀ (E : ExternalFns) (I : RunInputs) (st : ConvState) (r : AbortReason)
        (st2 : ConvState) (w : List String),
      normalize_and_convert E I st = .failure r st2 w → w = []) := by
  refine ⟨?_, ?_, ?_⟩
  · intro st key flds fs d h
    unfold buildShaTable at h
    unfold processRecord mkLegacyRaw
    simp only [processConfigEntries_canonical, processFilesList_map]
    simp [processDownloadList, mkRawDownload, h]
  · intro E existing st ag key raw rest r st2 h
    simp [runLoop, h]
  · intro E I st r st2 w h
    unfold normalize_and_convert at h
    cases hres : runLoop E (get_existing_showcases E I.preFolders) st initAggs I.records with
    | fatal r2 st3 =>
      simp only [hres] at h
      injection h with h1 h2 h3
      exact h3.symm
    | ok st3 ag =>
      simp only [hres] at h
      unfold finalStage at h
      by_cases hv : E.strictParse
          (E.serialize (buildReference ag (postPassFolders E st3 I.finalFolders))) = true
      · rw [if_pos hv] at h
        exact RunResult.noConfusion h
      · rw [if_neg hv] at h
        injection h with h1 h2 h3
        exact h3.symm

/-- Witness for C2 (amended), at a record with an unmatched download file
name, followed by a whole aborted run. -/
theorem missing_sha_key_aborts_run_witness :
    processRecord classInitialState "k" (mkLegacyRaw [] [sampleDownload] sampleFields) =
      .fatal .shaLookupKeyError classInitialState ∧
    runLoop idExternal [] classInitialState initAggs [("k", missingKeyRaw)] =
      .fatal .shaLookupKeyError classInitialState ∧
    ([] : List String) = [] :=
  ⟨missing_sha_key_aborts_run.1 classInitialState "k" sampleFields [] sampleDownload rfl,
   missing_sha_key_aborts_run.2.1 idExternal [] classInitialState initAggs "k"
     missingKeyRaw [] _ _ (by rfl),
   missing_sha_key_aborts_run.2.2 idExternal missingKeyRunInputs classInitialState
     .shaLookupKeyError classInitialState [] (by rfl)⟩

/-- C2 (counterexample): on a run holding a record `"k"` whose download
file name is absent from its lookup table, followed by a perfectly
well-formed record `"k2"`, the whole run dies with the uncaught
`KeyError`: the failure log stays empty (no entry for `"k"`), no record -
not even `"k2"` - reaches the output mapping, and the traversal does not
continue, contradicting the claim on every point. -/
theorem missing_sha_key_run_counterexample :
    normalize_and_convert idExternal missingKeyRunInputs classInitialState =
      .failure .shaLookupKeyError classInitialState [] ∧
    classInitialState.all_validation_errors_log = [] ∧
    classInitialState.all_model_records = [] :=
  ⟨rfl, rfl, rfl⟩

/-- C3 (amended): a record that declares at least one showcase URL and
whose expected folder appears in the pre-pass listing has its declared
list discarded and rebuilt as exactly the mapped on-disk file names; a
record that declares no showcase list - absent or empty - keeps its
declared value unchanged, whatever the on-disk folder holds. -/
theorem showcase_rebuild_spec (E : ExternalFns) (existing : List (String × List String))
    (st : ConvState) (key : String) (r : Legacy_StableDiffusion_ModelRecord) :
    (∀ s0 srest files, r.showcases = some (s0 :: srest) →
      List.lookup (E.model_name_to_showcase_folder_name key) existing = some files →
      stepValue (showcaseStep E existing st key r) =
        some { r with showcases := some (files.map
          (mkShowcaseUrl E (E.model_name_to_showcase_folder_name key))) }) ∧
    (r.showcases = none → stepValue (showcaseStep E existing st key r) = some r) ∧
    (r.showcases = some [] → stepValue (showcaseStep E existing st key r) = some r) := by
  refine ⟨?_, ?_, ?_⟩
  · intro s0 srest files hs hl
    unfold showcaseStep
    simp only [hs, hl]
    simp [apply_ite stepValue, stepValue]
  · intro hs
    unfold showcaseStep
    simp only [hs]
    simp [stepValue]
  · intro hs
    unfold showcaseStep
    simp only [hs]
    simp [stepValue]

/-- Witness for C3 (amended) at a record declaring one stale URL and an
on-disk folder holding one file. -/
theorem showcase_rebuild_spec_witness :
    stepValue (showcaseStep idExternal [("k", ["a.png"])] classInitialState "k"
        declaredShowcaseRecord) =
      some { declaredShowcaseRecord with showcases := some (["a.png"].map
        (mkShowcaseUrl idExternal (idExternal.model_name_to_showcase_folder_name "k"))) } :=
  (showcase_rebuild_spec idExternal [("k", ["a.png"])] classInitialState "k"
    declaredShowcaseRecord).1 "old-url" [] ["a.png"] rfl rfl

/-- C3 (counterexample): a record that declares no showcase list keeps
`showcases = none` even though its on-disk folder holds a file, so its
showcase URL list does not match the percent-encoded on-disk listing the
claim mandates; the record still continues through the pipeline. -/
theorem showcase_declared_none_counterexample :
    showcaseStep idExternal [("k", ["a.png"])] classInitialState "k" noShowcaseRecord =
      .ok { classInitialState with createdFolders := ["k"] } noShowcaseRecord ∧
    noShowcaseRecord.showcases = none ∧
    List.lookup (idExternal.model_name_to_showcase_folder_name "k") [("k", ["a.png"])] =
      some ["a.png"] ∧
    noShowcaseRecord.showcases ≠ some (["a.png"].map
      (mkShowcaseUrl idExternal (idExternal.model_name_to_showcase_folder_name "k"))) := by
  refine ⟨rfl, rfl, rfl, by simp [noShowcaseRecord, mkModelRecord, sampleFields]⟩

/-- C4: the converted database file is written only by a successful run,
exactly once and in full with the serialised validated form; a failed
strict re-validation ends the final stage with the surfaced validation
failure and nothing written; and an aborted run never writes at all. -/
theorem final_validation_gates_write (E : ExternalFns) (I : RunInputs) (st : ConvState) :
    (∀ st2 ag, E.strictParse
        (E.serialize (buildReference ag (postPassFolders E st2 I.finalFolders))) = false →
      finalStage E I st2 ag =
        .failure .finalValidationError (postPassFolders E st2 I.finalFolders) []) ∧
    (∀ st2 w, normalize_and_convert E I st = .success st2 w →
      ∃ s, w = [s] ∧ E.strictParse s = true) ∧
    (∀ r st2 w, normalize_and_convert E I st = .failure r st2 w → w = []) := by
  refine ⟨?_, ?_, ?_⟩
  · intro st2 ag h
    unfold finalStage
    simp [h]
  · intro st2 w h
    unfold normalize_and_convert at h
    cases hres : runLoop E (get_existing_showcases E I.preFolders) st initAggs I.records with
    | fatal r2 st3 =>
      simp only [hres] at h
      exact RunResult.noConfusion h
    | ok st3 ag =>
      simp only [hres] at h
      unfold finalStage at h
      by_cases hv : E.strictParse
          (E.serialize (buildReference ag (postPassFolders E st3 I.finalFolders))) = true
      · rw [if_pos hv] at h
        injection h with h1 h2
        exact ⟨E.serialize (buildReference ag (postPassFolders E st3 I.finalFolders)),
          h2.symm, hv⟩
      · rw [if_neg hv] at h
        exact RunResult.noConfusion h
  · intro r st2 w h
    unfold normalize_and_convert at h
    cases hres : runLoop E (get_existing_showcases E I.preFolders) st initAggs I.records with
    | fatal r2 st3 =>
      simp only [hres] at h
      injection h with h1 h2 h3
      exact h3.symm
    | ok st3 ag =>
      simp only [hres] at h
      unfold finalStage at h
      by_cases hv : E.strictParse
          (E.serialize (buildReference ag (postPassFolders E st3 I.finalFolders))) = true
      · rw [if_pos hv] at h
        exact RunResult.noConfusion h
      · rw [if_neg hv] at h
        injection h with h1 h2 h3
        exact h3.symm

/-- Witness for C4: a failing final validation writes nothing, a clean
empty run writes its single serialised form, an aborted run writes
nothing. -/
theorem final_validation_gates_write_witness :
    finalStage alwaysInvalidExternal emptyRunInputs classInitialState initAggs =
      .failure .finalValidationError
        (postPassFolders alwaysInvalidExternal classInitialState emptyRunInputs.finalFolders)
        [] ∧
    (∃ s, ["db"] = [s] ∧ idExternal.strictParse s = true) ∧
    ([] : List String) = [] :=
  ⟨(final_validation_gates_write alwaysInvalidExternal emptyRunInputs classInitialState).1
      classInitialState initAggs rfl,
   (final_validation_gates_write idExternal emptyRunInputs classInitialState).2.1
      classInitialState ["db"] (by rfl),
   (final_validation_gates_write alwaysInvalidExternal emptyRunInputs classInitialState).2.2
      .finalValidationError classInitialState [] (by rfl)⟩

/-- The `"files"` branch of the config checker prints findings but never
touches the validation log. -/
theorem checkFilesList_log (key : String) (l : List ConfigValue) :
    ∀ st, (stepState (checkFilesList st key l)).all_validation_errors_log =
      st.all_validation_errors_log := by
  induction l with
  | nil => intro st; rfl
  | cons v rest ih =>
    intro st
    cases v with
    | download d => simp [checkFilesList, stepState, addPrint]
    | file cf =>
      simp only [checkFilesList]
      cases hsha : cf.sha256sum <;> split_ifs <;>
        simp [ih, addPrint, apply_ite ConvState.all_validation_errors_log]

/-- `consValue` leaves the carried state alone. -/
theorem stepState_consValue (d : ConfigValue)
    (x : StepResult (List (String × Nat) × List ConfigValue)) :
    stepState (consValue d x) = stepState x := by
  cases x with
  | ok st a => obtain ⟨h, vs⟩ := a; rfl
  | fatal r s => rfl

/-- `consEntry` leaves the carried state alone. -/
theorem stepState_consEntry (k : String) (vs : List ConfigValue)
    (x : StepResult (List (String × List ConfigValue) × List (String × Nat))) :
    stepState (consEntry k vs x) = stepState x := by
  cases x with
  | ok st a => obtain ⟨es, h⟩ := a; rfl
  | fatal r s => rfl

/-- The `"download"` branch of the config checker prints findings but
never touches the validation log. -/
theorem checkDownloadList_log (E : ExternalFns) (key : String) (l : List ConfigValue) :
    ∀ st hosts, (stepState (checkDownloadList E st key hosts l)).all_validation_errors_log =
      st.all_validation_errors_log := by
  induction l with
  | nil => intro st hosts; rfl
  | cons v rest ih =>
    intro st hosts
    cases v with
    | file f => simp [checkDownloadList, stepState, addPrint]
    | download d =>
      simp only [checkDownloadList]
      cases hurl : d.file_url with
      | none => split_ifs <;> simp [stepState_consValue, ih, addPrint]
      | some u =>
        by_cases hu : (u == "") = true
        · simp only [hu, if_true]
          split_ifs <;> simp [stepState_consValue, ih, addPrint]
        · simp only [hu, Bool.false_eq_true, if_false]
          cases hp : E.parseHost u with
          | some host =>
            simp only [hp]
            split_ifs <;> simp [stepState_consValue, ih, addPrint]
          | none =>
            simp only [hp]
            split_ifs <;> simp [stepState, addPrint]

/-- The whole config-entry checker prints findings but never touches the
validation log. -/
theorem checkConfigEntriesAux_log (E : ExternalFns) (key : String)
    (entries : List (String × List ConfigValue)) :
    ∀ st hosts, (stepState (checkConfigEntriesAux E st key hosts entries)).all_validation_errors_log =
      st.all_validation_errors_log := by
  induction entries with
  | nil => intro st hosts; rfl
  | cons p rest ih =>
    intro st hosts
    obtain ⟨k, vs⟩ := p
    simp only [checkConfigEntriesAux]
    by_cases hk : (k == "files") = true
    · simp only [hk, if_true]
      cases hres : checkFilesList st key vs with
      | fatal r s2 =>
        have hl := checkFilesList_log key vs st
        rw [hres] at hl
        simpa [stepState] using hl
      | ok st2 a =>
        have hl := checkFilesList_log key vs st
        rw [hres] at hl
        simp [stepState] at hl
        simp [stepState_consEntry, ih, hl]
    · simp only [hk, Bool.false_eq_true, if_false]
      by_cases hk2 : (k == "download") = true
      · simp only [hk2, if_true]
        cases hres : checkDownloadList E st key hosts vs with
        | fatal r s2 =>
          have hl := checkDownloadList_log E key vs st hosts
          rw [hres] at hl
          simpa [stepState] using hl
        | ok st2 a =>
          obtain ⟨h2, vs2⟩ := a
          have hl := checkDownloadList_log E key vs st hosts
          rw [hres] at hl
          simp [stepState] at hl
          simp [stepState_consEntry, ih, hl]
      · simp only [hk2, Bool.false_eq_true, if_false]
        simp [stepState_consEntry, ih]

/-- C7 (amended): per-config-entry advisory findings are raw stdout
prints; the validation findings log is never touched by the config-entry
checker - only record-level and folder-level findings are recorded there.
A download descriptor with a non-empty or missing `file_path` override
and no URL, for instance, has both findings printed while the log is left
exactly as it was. -/
theorem config_entry_findings_print_only (E : ExternalFns) (st : ConvState) (key : String)
    (entries : List (String × List ConfigValue)) :
    (stepState (normalize_and_convert_config_entries E st key entries)).all_validation_errors_log =
      st.all_validation_errors_log ∧
    (∀ hosts (d : Legacy_Config_DownloadRecord),
      (d.file_name == "") = false → (d.file_path == some "") = false → d.file_url = none →
      stepState (checkDownloadList E st key hosts [ConfigValue.download d]) =
        addPrint (addPrint st (key ++ " has a download with a file_path."))
          (key ++ " has a download with no file_url.")) := by
  constructor
  · exact checkConfigEntriesAux_log E key entries st []
  · intro hosts d hn hp hu
    simp [checkDownloadList, hn, hp, hu, consValue, stepState]

/-- Witness for C7 (amended) at a concrete flagged download descriptor. -/
theorem config_entry_findings_print_only_witness :
    (stepState (normalize_and_convert_config_entries idExternal classInitialState "k"
        [])).all_validation_errors_log = classInitialState.all_validation_errors_log ∧
    stepState (checkDownloadList idExternal classInitialState "k" []
        [ConfigValue.download noUrlDownload]) =
      addPrint (addPrint classInitialState ("k" ++ " has a download with a file_path."))
        ("k" ++ " has a download with no file_url.") :=
  ⟨(config_entry_findings_print_only idExternal classInitialState "k" []).1,
   (config_entry_findings_print_only idExternal classInitialState "k" []).2
     [] noUrlDownload rfl rfl rfl⟩

/-- C7 (counterexample): a full successful run over one otherwise clean
record whose download carries a non-empty `file_path` override ends with
an empty validation findings log even though the finding was emitted (it
is on stdout only), contradicting the claim that every per-config-entry
advisory finding is recorded in the log under the record key. -/
theorem config_entry_findings_log_counterexample :
    isSuccess filePathRun = true ∧
    (stateOfRun filePathRun).all_validation_errors_log = [] ∧
    (stateOfRun filePathRun).printed.contains "k has a download with a file_path." = true := by
  refine ⟨rfl, rfl, rfl⟩

/-- C9: during config-entry checking a download descriptor with an empty
(or missing) URL is only skipped for host extraction - one finding is
printed, the host counter is untouched, and both the record and the run
continue with the remaining entries - whereas a URL whose host extraction
raises aborts the whole run, and an aborted run writes no output file. -/
theorem download_url_error_severity (E : ExternalFns) (st : ConvState) (key : String)
    (hosts : List (String × Nat)) (d : Legacy_Config_DownloadRecord)
    (rest : List ConfigValue)
    (hn : (d.file_name == "") = false) (hpc : d.file_path = some "") :
    (d.file_url = none ∨ d.file_url = some "" →
      checkDownloadList E st key hosts (ConfigValue.download d :: rest) =
        consValue (ConfigValue.download d)
          (checkDownloadList E (addPrint st (key ++ " has a download with no file_url."))
            key hosts rest)) ∧
    (∀ u, d.file_url = some u → (u == "") = false → E.parseHost u = none →
      checkDownloadList E st key hosts (ConfigValue.download d :: rest) =
        .fatal .hostParseError
          (addPrint st (key ++ " has a download with an invalid file_url."))) ∧
    (∀ (I : RunInputs) (r : AbortReason) (st2 : ConvState) (w : List String),
      normalize_and_convert E I st = .failure r st2 w → w = []) := by
  refine ⟨?_, ?_, ?_⟩
  · intro hu
    rcases hu with hu | hu <;> simp [checkDownloadList, hn, hpc, hu]
  · intro u hu hne hp
    simp [checkDownloadList, hn, hpc, hu, hne, hp]
  · intro I r st2 w h
    unfold normalize_and_convert at h
    cases hres : runLoop E (get_existing_showcases E I.preFolders) st initAggs I.records with
    | fatal r2 st3 =>
      simp only [hres] at h
      injection h with h1 h2 h3
      exact h3.symm
    | ok st3 ag =>
      simp only [hres] at h
      unfold finalStage at h
      by_cases hv : E.strictParse
          (E.serialize (buildReference ag (postPassFolders E st3 I.finalFolders))) = true
      · rw [if_pos hv] at h
        exact RunResult.noConfusion h
      · rw [if_neg hv] at h
        injection h with h1 h2 h3
        exact h3.symm

/-- Witness for C9: an empty-URL download is skipped and checking
continues; an unparseable host aborts; the aborted run writes nothing. -/
theorem download_url_error_severity_witness :
    checkDownloadList idExternal classInitialState "k" []
        [ConfigValue.download emptyUrlDownload] =
      consValue (ConfigValue.download emptyUrlDownload)
        (checkDownloadList idExternal
          (addPrint classInitialState ("k" ++ " has a download with no file_url."))
          "k" [] []) ∧
    checkDownloadList failingHostExternal classInitialState "k" []
        [ConfigValue.download sampleDownload] =
      .fatal .hostParseError
        (addPrint classInitialState ("k" ++ " has a download with an invalid file_url.")) ∧
    ([] : List String) = [] :=
  ⟨(download_url_error_severity idExternal classInitialState "k" [] emptyUrlDownload []
      rfl rfl).1 (Or.inr rfl),
   (download_url_error_severity failingHostExternal classInitialState "k" [] sampleDownload []
      rfl rfl).2.1 "u" rfl rfl rfl,
   (download_url_error_severity failingHostExternal classInitialState "k" [] sampleDownload []
      rfl rfl).2.2 { records := [("k", goodRaw)], preFolders := [], finalFolders := [] }
      .hostParseError _ [] (by rfl)⟩

/-- C8 (evidence for the code bug): `all_model_records` and
`all_validation_errors_log` are class attributes mutated only by item
assignment, and `__init__` never rebinds them, so a second freshly
constructed converter observes everything the first accumulated instead of
starting empty as the spec intends. -/
theorem class_level_state_shared :
    (LegacyConverterBase_init classInitialState).all_validation_errors_log = [] ∧
    (LegacyConverterBase_init (add_validation_error_to_log
        (LegacyConverterBase_init classInitialState) "k" "err")).all_validation_errors_log =
      [("k", ["err"])] ∧
    (LegacyConverterBase_init (storeRecord
        (LegacyConverterBase_init classInitialState) "k"
        noShowcaseRecord)).all_model_records = [("k", noShowcaseRecord)] :=
  ⟨rfl, rfl, rfl⟩

/-- `consValue` preserves the abort reason. -/
theorem fatalReasonOf_consValue (d : ConfigValue)
    (x : StepResult (List (String × Nat) × List ConfigValue)) :
    fatalReasonOf (consValue d x) = fatalReasonOf x := by
  cases x with
  | ok st a => obtain ⟨h, vs⟩ := a; rfl
  | fatal r s => rfl

/-- Checking a download list whose members are all download records can
only end cleanly or with a host-extraction abort - never a `TypeError`. -/
theorem checkDownloadList_reason (E : ExternalFns) (key : String)
    (ds : List Legacy_Config_DownloadRecord) :
    ∀ st hosts,
      fatalReasonOf (checkDownloadList E st key hosts (ds.map ConfigValue.download)) = none ∨
      fatalReasonOf (checkDownloadList E st key hosts (ds.map ConfigValue.download)) =
        some .hostParseError := by
  induction ds with
  | nil => intro st hosts; left; rfl
  | cons d rest ih =>
    intro st hosts
    simp only [List.map_cons, checkDownloadList]
    cases hurl : d.file_url with
    | none =>
      split_ifs <;> (rw [fatalReasonOf_consValue]; try rfl) <;> exact ih _ _
    | some u =>
      by_cases hu : (u == "") = true
      · simp only [hu, if_true]
        split_ifs <;> (rw [fatalReasonOf_consValue]; try rfl) <;> exact ih _ _
      · simp only [hu, Bool.false_eq_true, if_false]
        cases hp : E.parseHost u with
        | some host =>
          simp only [hp]
          split_ifs <;> (rw [fatalReasonOf_consValue]; try rfl) <;> exact ih _ _
        | none =>
          simp only [hp]
          split_ifs <;> (right; rfl)

/-- The config-entry checker on the single `"download"` sub-collection is
exactly the download branch. -/
theorem checkConfigEntriesAux_single_download (E : ExternalFns) (st : ConvState)
    (key : String) (hosts : List (String × Nat)) (l : List ConfigValue) :
    checkConfigEntriesAux E st key hosts [("download", l)] =
      match checkDownloadList E st key hosts l with
      | .ok st2 (h2, vs2) => .ok st2 ([("download", vs2)], h2)
      | .fatal r s2 => .fatal r s2 := by
  have e1 : ("download" == "files") = false := rfl
  have e2 : ("download" == "download") = true := rfl
  simp only [checkConfigEntriesAux, e1, e2, Bool.false_eq_true, if_false, if_true]
  cases hdl : checkDownloadList E st key hosts l with
  | fatal r s2 => rfl
  | ok st2 a => obtain ⟨h2, vs2⟩ := a; rfl

/-- C10: every record the iterator actually yields carries a config
mapping holding exactly the single `"download"` key, so the config-entry
checker on a pipeline-processed record runs only its download branch (the
`"files"` branch is never entered) and neither of its two `TypeError`
raises is reachable. -/
theorem pipeline_config_download_only (st : ConvState) (key : String) (raw : RawRecord)
    (st2 : ConvState) (r : Legacy_StableDiffusion_ModelRecord)
    (h : processRecord st key raw = .ok st2 (some r)) :
    ∃ ds : List Legacy_Config_DownloadRecord,
      r.config = [("download", ds.map ConfigValue.download)] ∧
      (∀ (E : ExternalFns) (st3 : ConvState),
        normalize_and_convert_config_entries E st3 key r.config =
          match checkDownloadList E st3 key [] (ds.map ConfigValue.download) with
          | .ok st4 (h4, vs4) => .ok st4 ([("download", vs4)], h4)
          | .fatal r2 s4 => .fatal r2 s4) ∧
      (∀ (E : ExternalFns) (st3 : ConvState),
        fatalReasonOf (normalize_and_convert_config_entries E st3 key r.config) ≠
          some .typeErrorFiles ∧
        fatalReasonOf (normalize_and_convert_config_entries E st3 key r.config) ≠
          some .typeErrorDownload) := by
  unfold processRecord at h
  cases hpc : processConfigEntries raw.config [] [] [] with
  | err e =>
    rw [hpc] at h
    cases e <;> simp_all
  | ok a =>
    obtain ⟨sha, fsl, dsl⟩ := a
    rw [hpc] at h
    cases hrest : raw.rest with
    | none =>
      rw [hrest] at h
      simp_all
    | some flds =>
      rw [hrest] at h
      have hr : r = mkModelRecord flds dsl := by
        injection h with h1 h2
        exact (Option.some.inj h2).symm
      subst hr
      refine ⟨dsl, rfl, ?_, ?_⟩
      · intro E st3
        exact checkConfigEntriesAux_single_download E st3 key [] (dsl.map ConfigValue.download)
      · intro E st3
        have hsingle := checkConfigEntriesAux_single_download E st3 key []
          (dsl.map ConfigValue.download)
        have hred : normalize_and_convert_config_entries E st3 key
            (mkModelRecord flds dsl).config =
            match checkDownloadList E st3 key [] (dsl.map ConfigValue.download) with
            | .ok st4 (h4, vs4) => .ok st4 ([("download", vs4)], h4)
            | .fatal r2 s4 => .fatal r2 s4 := hsingle
        rw [hred]
        have hn := checkDownloadList_reason E key dsl st3 []
        cases hdl : checkDownloadList E st3 key [] (dsl.map ConfigValue.download) with
        | ok st4 a => obtain ⟨h4, vs4⟩ := a; simp [fatalReasonOf]
        | fatal r2 s4 =>
          rw [hdl] at hn
          simp [fatalReasonOf] at hn
          simp [fatalReasonOf, hn]

/-- Witness for C10 at the concrete well-formed record. -/
theorem pipeline_config_download_only_witness :
    ∃ ds : List Legacy_Config_DownloadRecord,
      convertedGoodRecord.config = [("download", ds.map ConfigValue.download)] ∧
      (∀ (E : ExternalFns) (st3 : ConvState),
        normalize_and_convert_config_entries E st3 "k" convertedGoodRecord.config =
          match checkDownloadList E st3 "k" [] (ds.map ConfigValue.download) with
          | .ok st4 (h4, vs4) => .ok st4 ([("download", vs4)], h4)
          | .fatal r2 s4 => .fatal r2 s4) ∧
      (∀ (E : ExternalFns) (st3 : ConvState),
        fatalReasonOf (normalize_and_convert_config_entries E st3 "k"
          convertedGoodRecord.config) ≠ some .typeErrorFiles ∧
        fatalReasonOf (normalize_and_convert_config_entries E st3 "k"
          convertedGoodRecord.config) ≠ some .typeErrorDownload) :=
  pipeline_config_download_only classInitialState "k" goodRaw
    (storeRecord classInitialState "k" convertedGoodRecord) convertedGoodRecord (by rfl)
